import Mathlib

/-!
Verification of the multi-agent reasoning pipeline (`multi-agent-reasoning.ts`).

The development shallowly embeds the pure core of the program:

* the data model (`Subtask`, `Plan`, `Artifact`, evidence bundles, source records),
* the orchestrator's round-based scheduler (`Orchestrator.run`) and its bounded
  retry loop (`Orchestrator.executeSubtask`),
* the solver's voting rule (`Solver.vote`),
* the judge's decision computation (`Judge.inspect`),
* the retriever's search-necessity classification and fallback logic
  (`Retriever.retrieve`), and the source-record parsing cascade
  (`Retriever.parseSourceAnalysis`).

External effects (LLM calls, the tooling test-suite, JS regular-expression
matching and URL parsing) are modelled as explicit function parameters
("oracles"); everything the program computes itself is embedded directly.
The TypeScript `while` loop of the scheduler is modelled with explicit fuel;
each non-deadlocked round marks at least one new subtask done, so a fuel of
`plan.subtasks.length` rounds is exactly enough, and the `outOfFuel` marker
is unreachable from the initial state.
-/

/-- Substring test on character lists: does the list start with `pat`?
Mirrors the prefix step of JavaScript `String.prototype.includes`. -/
def listStartsWith : List Char → List Char → Bool
  | _, [] => true
  | [], _ :: _ => false
  | a :: as, b :: bs => a == b && listStartsWith as bs

/-- Substring containment on character lists (JavaScript `includes`). -/
def listContainsSub : List Char → List Char → Bool
  | [], pat => pat.isEmpty
  | a :: as, pat => listStartsWith (a :: as) pat || listContainsSub as pat

/-- JavaScript `s.includes(pat)` for strings. -/
def strContains (s pat : String) : Bool :=
  listContainsSub s.toList pat.toList

/-- JavaScript `s.startsWith(pat)` for strings. -/
def strStartsWith (s pat : String) : Bool :=
  listStartsWith s.toList pat.toList

/-- JavaScript `s.toLowerCase()` (character-wise lower-casing). -/
def strToLower (s : String) : String :=
  ⟨s.data.map Char.toLower⟩

/-- JavaScript `s.trim()`: strip whitespace from both ends. -/
def strTrim (s : String) : String :=
  ⟨(((s.data.dropWhile Char.isWhitespace).reverse).dropWhile
      Char.isWhitespace).reverse⟩

/-- Worker for `jsSplit`: structural fuel recursion over the text (a fuel of
`length + 1` always suffices, as every step consumes at least one
character when the separator is non-empty). -/
def jsSplitGo (sep : List Char) : Nat → List Char → List Char → List (List Char)
  | 0, rest, acc => [acc.reverse ++ rest]
  | fuel + 1, s, acc =>
    match s with
    | [] => [acc.reverse]
    | c :: cs =>
      if listStartsWith (c :: cs) sep then
        acc.reverse :: jsSplitGo sep fuel (List.drop sep.length (c :: cs)) []
      else
        jsSplitGo sep fuel cs (c :: acc)

/-- JavaScript `s.split(sep)` for a non-empty literal separator. -/
def jsSplit (s sep : String) : List String :=
  (jsSplitGo sep.toList (s.toList.length + 1) s.toList []).map
    (fun cs => ⟨cs⟩)

-- ────────────────────────────────────────────────────────────────────────────
-- Core types (source: "Core types" section of multi-agent-reasoning.ts)
-- ────────────────────────────────────────────────────────────────────────────

/-- `type ID = string` -/
abbrev ID := String

/-- `type SubtaskKind = 'research' | 'reason' | 'verify' | 'coding' | 'math'
     | 'synthesis' | 'general'` -/
inductive SubtaskKind where
  | research | reason | verify | coding | math | synthesis | general
deriving DecidableEq, Repr

/-- `interface Subtask { id; kind; prompt; deps? }`.  The optional `deps`
field is modelled as a list that is empty when absent (the scheduler reads it
as `s.deps ?? []`). -/
structure Subtask where
  id : ID
  kind : SubtaskKind
  prompt : String
  deps : List ID
deriving DecidableEq, Repr

/-- `interface Plan { subtasks: Subtask[] }` -/
structure Plan where
  subtasks : List Subtask
deriving DecidableEq, Repr

/-- The ids declared by a plan, in declaration order. -/
def Plan.ids (plan : Plan) : List ID :=
  plan.subtasks.map Subtask.id

/-- A solver proposal: `{ text, citations, evidence }`.  The `evidence` field
(the retrieval bundle attached to every proposal of a batch) is not inspected
by any verified operation and is omitted. -/
structure Proposal where
  text : String
  citations : List String
deriving DecidableEq, Repr

/-- An executed subtask's artifact.  A passing candidate is returned as-is
(`critique`/`failed`/`note` absent); an exhausted retry loop returns the last
candidate spread together with `critique`, `failed: true` and a `note`
(see `Orchestrator.executeSubtask`). -/
structure Artifact where
  text : String
  citations : List String
  critique : Option String
  failed : Bool
  note : Option String
deriving DecidableEq, Repr

-- ────────────────────────────────────────────────────────────────────────────
-- Solver.vote (source: class Solver, method vote)
-- ────────────────────────────────────────────────────────────────────────────

/-- One step of locating the head of the stable descending sort used by
`vote`: keep the earlier proposal unless the later one is strictly longer. -/
def pickLongest (best p : Proposal) : Proposal :=
  if p.text.length > best.text.length then p else best

/-- `Solver.vote(proposals)`.

Source:
```
if (proposals.length === 1) return proposals[0];
const sortedByLength = [...proposals].sort((a, b) => b.text.length - a.text.length);
const longest = sortedByLength[0];
const first = proposals[0];
if (longest.text.length > first.text.length * 1.2) return longest;
return first;
```
`sort` is stable, so `sortedByLength[0]` is the earliest proposal of maximal
text length; this head is computed directly by `foldl pickLongest`.  The
floating-point test `longest.text.length > first.text.length * 1.2` agrees
with the exact rational test `5 * longest > 6 * first` for every length that
a JavaScript string can have (the relative rounding error of `len * 1.2`,
at most a few units in the last place, is far below the distance from
`6 * len / 5` to the nearest distinct integer).  On the empty list the
TypeScript function would dereference `undefined`; it is never called with
one (`propose` always returns `k ≥ 1` proposals), and the empty case returns
a dummy proposal. -/
def Solver.vote (proposals : List Proposal) : Proposal :=
  match proposals with
  | [] => { text := "", citations := [] }
  | first :: rest =>
    if rest.isEmpty then first
    else
      let longest := rest.foldl pickLongest first
      if 5 * longest.text.length > 6 * first.text.length then longest else first

-- ────────────────────────────────────────────────────────────────────────────
-- Evidence log entries and judge verdict shapes
-- (source: interface EvidenceItem, class Judge / class Tooling)
-- ────────────────────────────────────────────────────────────────────────────

/-- The `role` field of an `EvidenceItem`. -/
inductive Role where
  | planner | solver | judge | tool
deriving DecidableEq, Repr

/-- One `EvidenceItem` of the append-only evidence log.  Only the audit key
`stepId = "<subtaskId>:<attemptIndex>"` and the `role` are modelled; the
`input`/`output` snapshots are untyped `Record<string, any>` values that no
verified operation reads back. -/
structure LogEntry where
  stepId : String
  role : Role
deriving DecidableEq, Repr

/-- One named result from the tooling test-suite (`Tooling.runTests`). -/
structure TestResult where
  name : String
  passed : Bool
deriving DecidableEq, Repr

/-- The `info` part of `Judge.inspect`'s return value: `{ critique, tests }`. -/
structure JudgeInfo where
  critique : String
  tests : List TestResult
deriving DecidableEq, Repr

/-- `Judge.inspect`'s return value: `{ passed, info: { critique, tests } }`. -/
structure InspectResult where
  passed : Bool
  info : JudgeInfo
deriving DecidableEq, Repr

/-- `type ModelProvider = 'openai' | 'groq'` -/
inductive ModelProvider where
  | openai | groq
deriving DecidableEq, Repr

/-- Proposal fan-out per attempt (source, `Orchestrator.executeSubtask`):
`MODELS.provider === 'Groq' ? 2 : (sub.kind === 'verify' ? 2 : 3)`. -/
def proposalCount (provider : ModelProvider) (kind : SubtaskKind) : Nat :=
  if provider == ModelProvider.groq then 2
  else if kind == SubtaskKind.verify then 2 else 3

-- ────────────────────────────────────────────────────────────────────────────
-- Orchestrator.executeSubtask (bounded retry loop)
-- ────────────────────────────────────────────────────────────────────────────

/-- A passing candidate is returned unchanged (`return candidate`); such an
artifact carries no `critique`/`failed`/`note` annotation. -/
def attemptArtifact (p : Proposal) : Artifact :=
  { text := p.text, citations := p.citations, critique := none,
    failed := false, note := none }

/-- The `note` attached when all retries are exhausted (verbatim from the
source, including its non-breaking hyphen). -/
def exhaustedNote : String := "Max retries exhausted; returning best‑effort candidate."

/-- `{ ...lastCandidate, failed: true, note: ... }` where `lastCandidate`
is `{ ...candidate, critique: info.critique }`.  The `none` case mirrors
spreading an undefined `lastCandidate` and is unreachable from
`Orchestrator.executeSubtask` (at least one attempt always runs). -/
def exhaustedArtifact : Option (Proposal × String) → Artifact
  | some (p, crit) =>
      { text := p.text, citations := p.citations, critique := some crit,
        failed := true, note := some exhaustedNote }
  | none =>
      { text := "", citations := [], critique := none,
        failed := true, note := some exhaustedNote }

/-- The two evidence-log entries appended per attempt: a solver entry and a
judge entry, both with stepId `"<subId>:<attempt>"`. -/
def attemptEntries (subId : String) (attempt : Nat) : List LogEntry :=
  [{ stepId := subId ++ ":" ++ toString attempt, role := Role.solver },
   { stepId := subId ++ ":" ++ toString attempt, role := Role.judge }]

/-- The `for (let attempt = 0; attempt <= maxRetries; attempt++)` loop of
`Orchestrator.executeSubtask`, with the remaining iteration count as fuel
(the entry point passes `maxRetries + 1`).  The solver (`propose`) and judge
(`inspect`) are the injected collaborators of the orchestrator and appear as
oracle functions of the attempt index; the candidate is selected from the
proposal batch by the real `Solver.vote`.  Each attempt appends one solver
entry and one judge entry to the evidence log, returned here alongside the
artifact. -/
def executeSubtaskGo (subId : String) (proposeFn : Nat → Nat → List Proposal)
    (inspectFn : Nat → Proposal → InspectResult) (k : Nat) :
    Nat → Nat → Option (Proposal × String) → Artifact × List LogEntry
  | 0, _, last => (exhaustedArtifact last, [])
  | fuel + 1, attempt, last =>
    let candidate := Solver.vote (proposeFn attempt k)
    let v := inspectFn attempt candidate
    if v.passed then (attemptArtifact candidate, attemptEntries subId attempt)
    else
      let r := executeSubtaskGo subId proposeFn inspectFn k fuel (attempt + 1)
        (some (candidate, v.info.critique))
      (r.1, attemptEntries subId attempt ++ r.2)

/-- `Orchestrator.executeSubtask(sub, artifacts, goal)`: run the bounded retry
loop with proposal fan-out `proposalCount provider sub.kind`, starting from
attempt 0 with no previous candidate. -/
def Orchestrator.executeSubtask (maxRetries : Nat) (provider : ModelProvider)
    (sub : Subtask) (proposeFn : Nat → Nat → List Proposal)
    (inspectFn : Nat → Proposal → InspectResult) : Artifact × List LogEntry :=
  executeSubtaskGo sub.id proposeFn inspectFn (proposalCount provider sub.kind)
    (maxRetries + 1) 0 none

/-- Number of solver attempts recorded in a log fragment (one solver entry is
appended per propose/vote/inspect round). -/
def solverSteps (entries : List LogEntry) : Nat :=
  entries.countP (fun e => e.role == Role.solver)

-- ────────────────────────────────────────────────────────────────────────────
-- Orchestrator.run (round-based scheduler)
-- ────────────────────────────────────────────────────────────────────────────

/-- The ready frontier (source):
`plan.subtasks.filter(s => !done.has(s.id) && (s.deps ?? []).every(d => done.has(d)))`. -/
def readyBatch (plan : Plan) (done : List ID) : List Subtask :=
  plan.subtasks.filter
    (fun s => !done.contains s.id && s.deps.all (fun d => done.contains d))

/-- `done.add(id)` on the JavaScript `Set done`, modelled as an
insertion-ordered duplicate-free list (JS sets preserve insertion order, and
`done.size` is this list's length). -/
def setAdd (l : List ID) (x : ID) : List ID :=
  if l.contains x then l else l ++ [x]

/-- Outcome of the scheduler's `while` loop. -/
inductive LoopResult where
  | deadlock : LoopResult
  | outOfFuel : LoopResult
  | finished : List ID → List (ID × Artifact) → LoopResult
deriving DecidableEq, Repr

/-- `while (done.size < plan.subtasks.length) { ... }` with explicit fuel
(the entry point passes `plan.subtasks.length`, which always suffices: every
non-deadlocked round marks at least one new id done).  Each round computes
the ready frontier; an empty frontier with work remaining is the fatal
`throw new Error('Deadlock in plan dependencies')`, which carries no partial
result.  Otherwise every frontier subtask is executed against the artifact
table as of the start of the round (the concurrent batch), the results are
appended to the table (`artifacts[id] = artifact`) and the ids marked done. -/
def runLoop (execA : Subtask → List (ID × Artifact) → Artifact) (plan : Plan) :
    Nat → List ID → List (ID × Artifact) → LoopResult
  | 0, done, arts =>
      if done.length < plan.subtasks.length then .outOfFuel
      else .finished done arts
  | fuel + 1, done, arts =>
      if done.length < plan.subtasks.length then
        let batch := readyBatch plan done
        if batch.isEmpty then .deadlock
        else
          let results := batch.map (fun s => (s.id, execA s arts))
          runLoop execA plan fuel
            (results.foldl (fun d r => setAdd d r.1) done) (arts ++ results)
      else .finished done arts

/-- Outcome of `Orchestrator.run`: the fatal deadlock error (carrying no
artifact table and no final artifact), fuel exhaustion (unreachable from the
initial state), or the completed run with the final artifact, the done set
(in insertion order) and the artifact table. -/
inductive RunOutcome where
  | deadlock : RunOutcome
  | outOfFuel : RunOutcome
  | ok : Option Artifact → List ID → List (ID × Artifact) → RunOutcome
deriving DecidableEq, Repr

/-- `const finalId = plan.subtasks.findLast?.(Boolean)?.id ?? plan.subtasks[plan.subtasks.length - 1].id;`
— `findLast(Boolean)` over (always truthy) subtask objects selects the last
subtask in declared order. -/
def Plan.finalId (plan : Plan) : Option ID :=
  plan.subtasks.getLast?.map Subtask.id

/-- `artifacts[id]`: look up an id in the artifact table. -/
def lookupArtifact (arts : List (ID × Artifact)) (i : ID) : Option Artifact :=
  (arts.find? (fun p => p.1 == i)).map Prod.snd

/-- `Orchestrator.run(goal)`, parameterized over the per-subtask executor
(`executeSubtask` applied to the artifact table as of its round's start; the
plan itself comes from the external Planner).  The returned final artifact is
`artifacts[finalId]`. -/
def Orchestrator.run (execA : Subtask → List (ID × Artifact) → Artifact)
    (plan : Plan) : RunOutcome :=
  match runLoop execA plan plan.subtasks.length [] [] with
  | .deadlock => .deadlock
  | .outOfFuel => .outOfFuel
  | .finished done arts =>
      .ok (plan.finalId.bind (fun i => lookupArtifact arts i)) done arts

/-- A cyclic two-subtask plan used to witness the deadlock behaviour. -/
def cyclicPlan : Plan :=
  ⟨[⟨"s1", SubtaskKind.reason, "a", ["s2"]⟩,
    ⟨"s2", SubtaskKind.reason, "b", ["s1"]⟩]⟩

/-- A trivial executor for witnesses: echo the subtask id as artifact text. -/
def echoExec : Subtask → List (ID × Artifact) → Artifact :=
  fun s _ => ⟨s.id, [], none, false, none⟩

/-- An acyclic three-subtask chain s1 → s2 → s3 used as a witness plan. -/
def chainPlan : Plan :=
  ⟨[⟨"s1", SubtaskKind.research, "find facts", []⟩,
    ⟨"s2", SubtaskKind.reason, "synthesize", ["s1"]⟩,
    ⟨"s3", SubtaskKind.verify, "check", ["s2"]⟩]⟩

/-- A rank function witnessing that `chainPlan` is acyclic. -/
def chainRank : ID → Nat :=
  fun i => if i = "s1" then 0 else if i = "s2" then 1 else 2

/-- A plan whose declared-last subtask ("s2") is *not* the dependency sink:
"s1" depends on "s2", so "s2" completes first and "s1" last. -/
def lastNotSinkPlan : Plan :=
  ⟨[⟨"s1", SubtaskKind.reason, "conclude", ["s2"]⟩,
    ⟨"s2", SubtaskKind.research, "gather", []⟩]⟩

/-- A rank function witnessing that `lastNotSinkPlan` is acyclic. -/
def lastNotSinkRank : ID → Nat :=
  fun i => if i = "s2" then 0 else 1

-- ────────────────────────────────────────────────────────────────────────────
-- Judge (source: class Judge)
-- ────────────────────────────────────────────────────────────────────────────

/-- Keyword family (source, `Judge.requiresCitations`): math questions that do
not need citations. -/
def mathKeywords : List String :=
  ["calculate", "solve", "equation", "derivative", "integral", "algebra",
   "geometry", "arithmetic", "+", "-", "*", "/", "=", "formula", "theorem",
   "proof", "math"]

/-- Keyword family: code questions that do not need citations. -/
def codeKeywords : List String :=
  ["code", "programming", "function", "algorithm", "debug", "syntax",
   "variable", "loop", "class", "method", "python", "javascript", "typescript"]

/-- Keyword family: conceptual questions that do not need citations. -/
def conceptualKeywords : List String :=
  ["what is", "define", "explain", "how does", "how to", "difference between",
   "compare", "concept of", "meaning of", "definition of"]

/-- Keyword family: technical questions that do not need citations. -/
def technicalKeywords : List String :=
  ["machine learning", "ai", "database", "api", "framework", "library",
   "protocol", "encryption", "security", "network"]

/-- Keyword family: factual/current questions that do need citations. -/
def citationRequiredKeywords : List String :=
  ["latest", "recent", "current", "today", "this year", "2024", "2025",
   "breaking news", "update", "who is", "when did", "population of",
   "capital of", "price of", "stock price", "weather", "news", "event"]

/-- `Judge.requiresCitations(goal)`: citation-required keywords win first,
then the four knowledge/logic families switch citations off; ambiguous goals
default to requiring citations. -/
def Judge.requiresCitations (goal : String) : Bool :=
  let goalLower := strToLower goal
  if citationRequiredKeywords.any (fun kw => strContains goalLower kw) then true
  else if mathKeywords.any (fun kw => strContains goalLower kw)
      || codeKeywords.any (fun kw => strContains goalLower kw)
      || conceptualKeywords.any (fun kw => strContains goalLower kw)
      || technicalKeywords.any (fun kw => strContains goalLower kw) then false
  else true

/-- The three evaluation modes selected by the judge. -/
inductive EvalMode where
  | source_verification | logic_based | citation_required
deriving DecidableEq, Repr

/-- `citations.some(source => source.startsWith('http') && !source.includes('example.com'))` -/
def hasRealSources (citations : List String) : Bool :=
  citations.any (fun s => strStartsWith s "http" && !strContains s "example.com")

/-- `Judge.inspect(subtask, artifact, goal)`.  The tooling test-suite
(`this.tooling.runTests`) and the critique-generating backend call
(`generateText` over the mode-shaped prompt) are external collaborators and
appear as oracles; the critique oracle receives everything the verification
prompt is built from.  The artifact's citation list plays the role of
`artifact.citations || artifact.sources || []`.  The decision is
`passed = tests.every(t => t.passed)`. -/
def Judge.inspect (runTests : Artifact → List TestResult)
    (critiqueFn : EvalMode → Subtask → Artifact → String → List TestResult → String)
    (sub : Subtask) (artifact : Artifact) (goal : String) : InspectResult :=
  let tests := runTests artifact
  let needsCitations := Judge.requiresCitations goal
  let citations := artifact.citations
  let hasReal := hasRealSources citations
  let usesKnowledgeBase := citations.contains "internal-knowledge"
  let evaluationMode : EvalMode :=
    if hasReal then EvalMode.source_verification
    else if usesKnowledgeBase || !needsCitations then EvalMode.logic_based
    else EvalMode.citation_required
  let critique := critiqueFn evaluationMode sub artifact goal tests
  let passed := tests.all (fun t => t.passed)
  ⟨passed, ⟨critique, tests⟩⟩

-- ────────────────────────────────────────────────────────────────────────────
-- Retriever: search-necessity classification and retrieve (source: class
-- Retriever and the wiring in runMultiAgentReasoning)
-- ────────────────────────────────────────────────────────────────────────────

/-- The CLI search mode: `'always' | 'never' | 'auto'`. -/
inductive SearchMode where
  | always | never | auto
deriving DecidableEq, Repr

/-- Keyword family (source, `needsWebSearch`): very stable topics answered
from internal knowledge. -/
def stableKnowledgeKeywords : List String :=
  ["calculate", "solve", "equation", "derivative", "integral", "algebra",
   "geometry", "arithmetic", "+", "-", "*", "/", "=", "formula", "theorem",
   "proof", "basic math"]

/-- Keyword family: time-sensitive or factual queries that always need
external search. -/
def requiresSearchKeywords : List String :=
  ["latest", "recent", "current", "today", "this year", "2024", "2025",
   "breaking news", "update", "who is", "when did", "where is", "capital of",
   "population of", "price of", "stock price", "weather", "news"]

/-- Keyword family: rapidly evolving technical topics. -/
def evolvingTechnicalKeywords : List String :=
  ["machine learning", "ai", "framework", "library", "api", "security",
   "cryptocurrency", "blockchain"]

/-- Keyword family: recency indicators. -/
def recencyIndicators : List String :=
  ["best practices", "modern", "new", "updated", "v2", "v3", "latest version",
   "current approach"]

/-- Keyword family: basic conceptual questions. -/
def basicConceptualKeywords : List String :=
  ["what is", "define", "explain", "difference between", "how does"]

/-- `Retriever.needsWebSearch(query, goal)`: mode overrides first, then the
ordered auto-mode cascade over the combined lower-cased query+goal text,
defaulting to search. -/
def Retriever.needsWebSearch (searchMode : SearchMode) (query goal : String) :
    Bool :=
  match searchMode with
  | SearchMode.always => true
  | SearchMode.never => false
  | SearchMode.auto =>
    let combinedText := strToLower query ++ " " ++ strToLower goal
    if requiresSearchKeywords.any (fun kw => strContains combinedText kw) then
      true
    else if recencyIndicators.any (fun kw => strContains combinedText kw) then
      true
    else if stableKnowledgeKeywords.any (fun kw => strContains combinedText kw) then
      false
    else if evolvingTechnicalKeywords.any (fun kw => strContains combinedText kw) then
      true
    else if basicConceptualKeywords.any (fun kw => strContains combinedText kw)
        && !evolvingTechnicalKeywords.any (fun kw => strContains combinedText kw) then
      false
    else true

/-- Whether `MODELS.browserSearch` is set (source, `createModels`): only the
Groq provider wires the browser-search tool; OpenAI leaves it undefined. -/
def browserSearchAvailable : ModelProvider → Bool
  | ModelProvider.groq => true
  | ModelProvider.openai => false

/-- The guard of the search path in `Retriever.retrieve`:
`this.useRealSearch && MODELS.provider === 'Groq' && MODELS.browserSearch &&
subtaskKind === 'research' && this.needsWebSearch(query, goal)`. -/
def Retriever.shouldSearch (provider : ModelProvider) (useRealSearch : Bool)
    (searchMode : SearchMode) (kind : SubtaskKind) (query goal : String) :
    Bool :=
  useRealSearch && provider == ModelProvider.groq
    && browserSearchAvailable provider
    && kind == SubtaskKind.research
    && Retriever.needsWebSearch searchMode query goal

/-- `sourceMetadata` summary attached to a successful search bundle. -/
structure SourceMetadata where
  totalAnalyzed : Nat
  priorityCount : Nat
  averageRelevance : ℚ
  highAuthorityCount : Nat
  publicationDates : Nat
deriving DecidableEq, Repr

/-- One node of the evidence claim graph. -/
structure EvidenceNode where
  id : String
  type : String
  text : String
deriving DecidableEq, Repr

/-- An `EvidenceBundle` `{nodes, edges, sources, sourceMetadata?}`. -/
structure Bundle where
  nodes : List EvidenceNode
  edges : List String
  sources : List String
  sourceMetadata : Option SourceMetadata
deriving DecidableEq, Repr

/-- The shared fallback tail of `Retriever.retrieve` (reached when search is
not performed, or when the live fetch threw): with `shouldSearch` true the
bundle carries the placeholder source `https://example.com/source` and a
`claim` node `Evidence for: <query>`; with `shouldSearch` false it is the
knowledge-based bundle — `internal-knowledge` source and a `knowledge` node
(the source's comment: "Indicate this is knowledge-based"). -/
def fallbackBundle (shouldSearch : Bool) (query : String) : Bundle :=
  { nodes := [⟨"knowledge",
      if shouldSearch then "claim" else "knowledge",
      if shouldSearch then "Evidence for: " ++ query
      else "Knowledge-based response for: " ++ query
           ++ " (no external sources needed)"⟩],
    edges := [],
    sources := if shouldSearch then ["https://example.com/source"]
               else ["internal-knowledge"],
    sourceMetadata := none }

/-- Result of one `retrieve` call: the returned bundle, the search cache
after the call, and whether a live fetch was issued (`generateText` with the
`browser_search` tool). -/
structure RetrieveResult where
  bundle : Bundle
  cache : List (String × Bundle)
  fetched : Bool
deriving DecidableEq, Repr

/-- `Retriever.retrieve(query, subtaskKind, goal)`.  The live fetch
(`generateText` with the required `browser_search` tool) is the external
boundary and appears as the `generate` oracle returning either the response
text or the thrown error; the pure post-processing of a *successful* response
(`parseSourceAnalysis` + `prioritizeAndLimitSources` + metadata assembly,
which no claim constrains) is folded into the `successBundle` oracle.  The
cache (`searchCache`, keyed by `"search:" + query`) is threaded explicitly:
a hit returns the cached bundle without fetching, a successful fetch caches
its result, and a thrown fetch falls through to the fallback tail with
`shouldSearch` still true. -/
def Retriever.retrieve (provider : ModelProvider) (useRealSearch : Bool)
    (searchMode : SearchMode)
    (generate : String → Except String String)
    (successBundle : String → String → Bundle)
    (cache : List (String × Bundle))
    (query : String) (kind : SubtaskKind) (goal : String) : RetrieveResult :=
  if Retriever.shouldSearch provider useRealSearch searchMode kind query goal then
    match (cache.find? (fun p => p.1 == "search:" ++ query)).map Prod.snd with
    | some cached => ⟨cached, cache, false⟩
    | none =>
      match generate query with
      | Except.ok text =>
          ⟨successBundle text query,
           cache ++ [("search:" ++ query, successBundle text query)], true⟩
      | Except.error _ => ⟨fallbackBundle true query, cache, true⟩
  else ⟨fallbackBundle false query, cache, false⟩

/-- The wiring in `runMultiAgentReasoning`: `useRealSearch` is true exactly
for the Groq provider in `always`/`auto` modes and always false in `never`
mode (and for OpenAI, which has no web search). -/
def useRealSearchFor (provider : ModelProvider) (searchMode : SearchMode) :
    Bool :=
  match searchMode with
  | SearchMode.always => provider == ModelProvider.groq
  | SearchMode.never => false
  | SearchMode.auto => provider == ModelProvider.groq

-- ────────────────────────────────────────────────────────────────────────────
-- Retriever: source-record parsing cascade (source: parseSourceAnalysis and
-- its helpers)
-- ────────────────────────────────────────────────────────────────────────────

/-- `authority: 'High' | 'Medium' | 'Low'` -/
inductive Authority where
  | High | Medium | Low
deriving DecidableEq, Repr

/-- `interface SourceAnalysis { url; domain; relevanceScore; authority;
publicationDate?; keyFacts; contentQuality }`.  The relevance score, a
JavaScript number in [0,1], is modelled as a rational. -/
structure SourceAnalysis where
  url : String
  domain : String
  relevanceScore : ℚ
  authority : Authority
  publicationDate : Option String
  keyFacts : List String
  contentQuality : String
deriving DecidableEq, Repr

/-- The JavaScript regular-expression/URL layer of the source parsers,
modelled as an oracle: each field carries what the corresponding
`String.match`/`exec` capture groups (or `new URL(...)`) would return for a
given section or text.  Everything computed *from* these raw matches —
trimming, defaults, score conversion and clamping, authority tiers — is
embedded exactly, and the invariants below hold for *arbitrary* oracle
values, hence in particular for the real regex results. -/
structure RegexOracle where
  /-- `new URL(url).hostname`, `'unknown'` on parse failure. -/
  extractDomain : String → String
  /-- enhanced-format capture: `URL:` line. -/
  enhancedUrl : String → Option String
  /-- enhanced-format capture: `APPLICABLE:` (Yes/No, case-insensitive). -/
  enhancedApplicable : String → Option String
  /-- enhanced-format capture: `RELEVANCE:` (High/Medium/Low). -/
  enhancedRelevance : String → Option String
  /-- enhanced-format capture: `RECENCY:` line. -/
  enhancedRecency : String → Option String
  /-- enhanced-format capture: `RELIABILITY:` line. -/
  enhancedReliability : String → Option String
  /-- enhanced-format capture: `KEY_FACTS:` block. -/
  enhancedFacts : String → Option String
  /-- old-format capture: `**URL:**` line. -/
  oldUrl : String → Option String
  /-- old-format capture: `**DOMAIN:**` line. -/
  oldDomain : String → Option String
  /-- old-format capture: `**RELEVANCE:**` numeral, after `parseFloat`. -/
  oldRelevance : String → Option ℚ
  /-- old-format capture: `**AUTHORITY:**` (High/Medium/Low). -/
  oldAuthority : String → Option Authority
  /-- old-format capture: `**PUBLICATION:**` line. -/
  oldPublication : String → Option String
  /-- old-format capture: `**CONTENT QUALITY:**` line. -/
  oldContentQuality : String → Option String
  /-- old-format `**KEY FACTS:**` block: the dash-prefixed lines, stripped. -/
  oldFactLines : String → List String
  /-- the Groq tagged-citation matches `(title, domain)`. -/
  groqMatches : String → List (String × String)
  /-- the bare-URL pattern matches (http/https up to whitespace/bracket). -/
  urlMatches : String → List String

/-- `convertRelevanceToScore(relevance, applicable)`: 0.1 when not
applicable, else 0.9/0.6/0.3 for high/medium/low and 0.5 by default. -/
def Retriever.convertRelevanceToScore (relevance : String) (applicable : Bool) :
    ℚ :=
  if !applicable then 0.1
  else
    match strToLower relevance with
    | "high" => 0.9
    | "medium" => 0.6
    | "low" => 0.3
    | _ => 0.5

/-- `convertRelevanceToAuthority(relevance)`. -/
def Retriever.convertRelevanceToAuthority (relevance : String) : Authority :=
  match strToLower relevance with
  | "high" => Authority.High
  | "medium" => Authority.Medium
  | "low" => Authority.Low
  | _ => Authority.Medium

/-- `assessTitleRelevance(title)`: longer titles assumed to carry more
content. -/
def Retriever.assessTitleRelevance (title : String) : ℚ :=
  if title.length < 5 then 0.1
  else if title.length < 20 then 0.3
  else if title.length < 50 then 0.5
  else 0.7

/-- `assessDomainAuthority(domain)`: government/educational/organization
domains high, established non-blog domains medium, everything else low. -/
def Retriever.assessDomainAuthority (domain : String) : Authority :=
  if strContains domain ".gov" || strContains domain ".edu"
      || strContains domain ".org" then
    Authority.High
  else if decide (4 < domain.length) && !strContains domain "blogspot"
      && !strContains domain "wordpress" && !strContains domain "blog"
      && !strContains domain "forum" then
    Authority.Medium
  else Authority.Low

/-- `extractEnhancedSourceData(section)`: parse one enhanced `**SOURCE
EVALUATION**` section; `none` when no URL line matched. -/
def Retriever.extractEnhancedSourceData (ro : RegexOracle) (sec : String) :
    Option SourceAnalysis :=
  match ro.enhancedUrl sec with
  | none => none
  | some u =>
    let url := strTrim u
    let domain := ro.extractDomain url
    let isApplicable :=
      match ro.enhancedApplicable sec with
      | some a => strToLower a == "yes"
      | none => true
    let relevanceLevel := (ro.enhancedRelevance sec).getD "Medium"
    let recency := (ro.enhancedRecency sec).map strTrim
    let reliability :=
      ((ro.enhancedReliability sec).map strTrim).getD "Not specified"
    let keyFacts :=
      match ro.enhancedFacts sec with
      | some facts =>
        let t := strTrim facts
        if t ≠ "" ∧ t ≠ "[Specific facts that answer the query]" then [t]
        else []
      | none => []
    let publicationDate :=
      match recency with
      | some r => if r ≠ "How current is this information?" then some r else none
      | none => none
    some ⟨url, domain, Retriever.convertRelevanceToScore relevanceLevel isApplicable,
      Retriever.convertRelevanceToAuthority relevanceLevel, publicationDate,
      keyFacts, "Enhanced analysis: " ++ reliability⟩

/-- `extractSourceData(section)`: parse one old-format `**URL:**` section;
the relevance score is clamped to [0,1]
(`Math.max(0, Math.min(1, relevanceScore))`). -/
def Retriever.extractSourceData (ro : RegexOracle) (sec : String) :
    Option SourceAnalysis :=
  match ro.oldUrl sec with
  | none => none
  | some u =>
    let url := strTrim u
    let domain := ((ro.oldDomain sec).map strTrim).getD (ro.extractDomain url)
    let relevanceScore := (ro.oldRelevance sec).getD 0.5
    let authority := (ro.oldAuthority sec).getD Authority.Medium
    let publicationDate := (ro.oldPublication sec).map strTrim
    let contentQuality :=
      ((ro.oldContentQuality sec).map strTrim).getD "Not specified"
    some ⟨url, domain, max 0 (min 1 relevanceScore), authority,
      (if publicationDate = some "Not specified" then none else publicationDate),
      ro.oldFactLines sec, contentQuality⟩

/-- `parseStructuredFormat(text)`: split on `---`; enhanced `**SOURCE
EVALUATION**` sections first, falling back to the old `**URL:**` format. -/
def Retriever.parseStructuredFormat (ro : RegexOracle) (text : String) :
    List SourceAnalysis :=
  let enhancedSections := (jsSplit text "---").filter
    (fun sec => strContains sec "**SOURCE EVALUATION**"
      && decide (50 < (strTrim sec).length))
  if !enhancedSections.isEmpty then
    enhancedSections.filterMap (Retriever.extractEnhancedSourceData ro)
  else
    let sourceSections := (jsSplit text "---").filter
      (fun sec => strContains sec "**URL:**"
        && decide (50 < (strTrim sec).length))
    sourceSections.filterMap (Retriever.extractSourceData ro)

/-- `parseGroqFormat(text)`: records built from the platform-native tagged
citations (score from the title length) plus any direct URLs (score 0.7). -/
def Retriever.parseGroqFormat (ro : RegexOracle) (text : String) :
    List SourceAnalysis :=
  (ro.groqMatches text).map (fun m =>
    ⟨"https://" ++ m.2, m.2, Retriever.assessTitleRelevance m.1,
     Retriever.assessDomainAuthority m.2, none, [m.1],
     "Groq search result: " ++ m.1⟩)
  ++ (ro.urlMatches text).map (fun url =>
    ⟨url, ro.extractDomain url, 0.7,
     Retriever.assessDomainAuthority (ro.extractDomain url), none, [],
     "Direct URL found"⟩)

/-- `parseRegexFallback(text)`: bare-URL extraction, fixed score 0.5. -/
def Retriever.parseRegexFallback (ro : RegexOracle) (text : String) :
    List SourceAnalysis :=
  (ro.urlMatches text).map (fun url =>
    ⟨url, ro.extractDomain url, 0.5, Authority.Medium, none, [],
     "Regex fallback"⟩)

/-- `parseSourceAnalysis(text)`: the three-strategy cascade, applied in order
until one yields results. -/
def Retriever.parseSourceAnalysis (ro : RegexOracle) (text : String) :
    List SourceAnalysis :=
  let structuredSources := Retriever.parseStructuredFormat ro text
  if structuredSources.length > 0 then structuredSources
  else
    let groqSources := Retriever.parseGroqFormat ro text
    if groqSources.length > 0 then groqSources
    else Retriever.parseRegexFallback ro text

/-- A concrete regex oracle for the C8 witness: one Groq tagged citation and
nothing else. -/
def witnessOracle : RegexOracle where
  extractDomain := fun _ => "unknown"
  enhancedUrl := fun _ => none
  enhancedApplicable := fun _ => none
  enhancedRelevance := fun _ => none
  enhancedRecency := fun _ => none
  enhancedReliability := fun _ => none
  enhancedFacts := fun _ => none
  oldUrl := fun _ => none
  oldDomain := fun _ => none
  oldRelevance := fun _ => none
  oldAuthority := fun _ => none
  oldPublication := fun _ => none
  oldContentQuality := fun _ => none
  oldFactLines := fun _ => []
  groqMatches := fun _ => [("Some Title Here!", "example.gov")]
  urlMatches := fun _ => []

-- ────────────────────────────────────────────────────────────────────────────
-- Theorems
-- ────────────────────────────────────────────────────────────────────────────
-- Helper lemmas about `pickLongest` folds.

lemma foldl_pickLongest_mem (rest : List Proposal) :
    ∀ first : Proposal, rest.foldl pickLongest first ∈ first :: rest := by
  induction rest with
  | nil => intro first; simp
  | cons p rest ih =>
    intro first
    simp only [List.foldl_cons]
    rcases List.mem_cons.mp (ih (pickLongest first p)) with h | h
    · rw [h]
      unfold pickLongest
      split
      · exact List.mem_cons_of_mem _ (List.mem_cons_self _ _)
      · exact List.mem_cons_self _ _
    · exact List.mem_cons_of_mem _ (List.mem_cons_of_mem _ h)

lemma foldl_pickLongest_init_le (rest : List Proposal) :
    ∀ first : Proposal,
      first.text.length ≤ (rest.foldl pickLongest first).text.length := by
  induction rest with
  | nil => intro first; simp
  | cons p rest ih =>
    intro first
    simp only [List.foldl_cons]
    refine le_trans ?_ (ih (pickLongest first p))
    unfold pickLongest
    split <;> omega

lemma foldl_pickLongest_max (rest : List Proposal) :
    ∀ first : Proposal, ∀ p ∈ first :: rest,
      p.text.length ≤ (rest.foldl pickLongest first).text.length := by
  induction rest with
  | nil =>
    intro first p hp
    simp only [List.mem_singleton] at hp
    rw [hp]
    simp
  | cons q rest ih =>
    intro first p hp
    simp only [List.foldl_cons]
    have hstep : ∀ x : Proposal, x = first ∨ x = q →
        x.text.length ≤ (rest.foldl pickLongest (pickLongest first q)).text.length := by
      intro x hx
      refine le_trans ?_ (foldl_pickLongest_init_le rest (pickLongest first q))
      rcases hx with hx | hx <;> rw [hx] <;> unfold pickLongest <;> split <;> omega
    rcases List.mem_cons.mp hp with h | h
    · exact hstep p (Or.inl h)
    · rcases List.mem_cons.mp h with h' | h'
      · exact hstep p (Or.inr h')
      · exact ih (pickLongest first q) p (List.mem_cons_of_mem _ h')

/-- C6: `Solver.vote` on a non-empty list returns an element of the list; it
returns the first proposal when no proposal's text length exceeds the first's
by more than 20% (rationally, when `5·len(p) ≤ 6·len(first)` for all `p`),
and otherwise returns a proposal of maximal text length. -/
theorem vote_spec (first : Proposal) (rest : List Proposal) :
    Solver.vote (first :: rest) ∈ first :: rest ∧
    ((∀ p ∈ first :: rest, 5 * p.text.length ≤ 6 * first.text.length) →
       Solver.vote (first :: rest) = first) ∧
    ((∃ p ∈ first :: rest, 6 * first.text.length < 5 * p.text.length) →
       ∀ p ∈ first :: rest,
         p.text.length ≤ (Solver.vote (first :: rest)).text.length) := by
  cases rest with
  | nil =>
    refine ⟨by simp [Solver.vote], fun _ => rfl, ?_⟩
    rintro ⟨p, hp, hgt⟩
    simp only [List.mem_singleton] at hp
    rw [hp] at hgt
    omega
  | cons q qs =>
    have hvote : Solver.vote (first :: q :: qs) =
        if 5 * ((q :: qs).foldl pickLongest first).text.length >
            6 * first.text.length
          then (q :: qs).foldl pickLongest first else first := rfl
    have hmem := foldl_pickLongest_mem (q :: qs) first
    have hmax := foldl_pickLongest_max (q :: qs) first
    refine ⟨?_, ?_, ?_⟩
    · rw [hvote]
      split
      · exact hmem
      · exact List.mem_cons_self _ _
    · intro hall
      have hle := hall _ hmem
      rw [hvote]
      split
      · omega
      · rfl
    · rintro ⟨p, hp, hgt⟩
      have hple := hmax p hp
      have hcond : 5 * ((q :: qs).foldl pickLongest first).text.length >
          6 * first.text.length := by omega
      rw [hvote, if_pos hcond]
      exact hmax

/-- Witness for C6 at concrete inputs: with a second proposal more than 20%
longer than the first the vote picks a longest proposal; with a shorter
second proposal it sticks with the first. -/
theorem vote_spec_witness :
    Solver.vote [⟨"aaaa", []⟩, ⟨"aaa", []⟩] = ⟨"aaaa", []⟩ ∧
    (∀ p ∈ [(⟨"aa", []⟩ : Proposal), ⟨"aaaaaa", []⟩],
       p.text.length ≤ (Solver.vote [⟨"aa", []⟩, ⟨"aaaaaa", []⟩]).text.length) := by
  constructor
  · exact (vote_spec ⟨"aaaa", []⟩ [⟨"aaa", []⟩]).2.1 (by decide)
  · exact (vote_spec ⟨"aa", []⟩ [⟨"aaaaaa", []⟩]).2.2 ⟨⟨"aaaaaa", []⟩, by decide, by decide⟩

lemma solverSteps_attemptEntries (subId : String) (attempt : Nat) :
    solverSteps (attemptEntries subId attempt) = 1 := rfl

lemma solverSteps_append (l₁ l₂ : List LogEntry) :
    solverSteps (l₁ ++ l₂) = solverSteps l₁ + solverSteps l₂ :=
  List.countP_append _ _ _

lemma go_step_pass (subId : String) (proposeFn : Nat → Nat → List Proposal)
    (inspectFn : Nat → Proposal → InspectResult) (k fuel attempt : Nat)
    (last : Option (Proposal × String))
    (hpass : (inspectFn attempt (Solver.vote (proposeFn attempt k))).passed = true) :
    executeSubtaskGo subId proposeFn inspectFn k (fuel + 1) attempt last
      = (attemptArtifact (Solver.vote (proposeFn attempt k)),
         attemptEntries subId attempt) := by
  rw [executeSubtaskGo]
  simp only [hpass, if_true]

lemma go_step_fail (subId : String) (proposeFn : Nat → Nat → List Proposal)
    (inspectFn : Nat → Proposal → InspectResult) (k fuel attempt : Nat)
    (last : Option (Proposal × String))
    (hfail : (inspectFn attempt (Solver.vote (proposeFn attempt k))).passed = false) :
    executeSubtaskGo subId proposeFn inspectFn k (fuel + 1) attempt last
      = ((executeSubtaskGo subId proposeFn inspectFn k fuel (attempt + 1)
            (some (Solver.vote (proposeFn attempt k),
              (inspectFn attempt (Solver.vote (proposeFn attempt k))).info.critique))).1,
         attemptEntries subId attempt ++
           (executeSubtaskGo subId proposeFn inspectFn k fuel (attempt + 1)
             (some (Solver.vote (proposeFn attempt k),
               (inspectFn attempt
                 (Solver.vote (proposeFn attempt k))).info.critique))).2) := by
  rw [executeSubtaskGo]
  simp only [hfail, Bool.false_eq_true, if_false]

lemma go_steps_le (subId : String) (proposeFn : Nat → Nat → List Proposal)
    (inspectFn : Nat → Proposal → InspectResult) (k : Nat) :
    ∀ fuel attempt last,
      solverSteps (executeSubtaskGo subId proposeFn inspectFn k fuel attempt last).2
        ≤ fuel := by
  intro fuel
  induction fuel with
  | zero => intro attempt last; simp [executeSubtaskGo, solverSteps]
  | succ fuel ih =>
    intro attempt last
    by_cases hp : (inspectFn attempt (Solver.vote (proposeFn attempt k))).passed = true
    · rw [go_step_pass subId proposeFn inspectFn k fuel attempt last hp]
      rw [solverSteps_attemptEntries]
      omega
    · rw [go_step_fail subId proposeFn inspectFn k fuel attempt last
        (Bool.eq_false_iff.mpr hp)]
      have h := ih (attempt + 1)
        (some (Solver.vote (proposeFn attempt k),
          (inspectFn attempt (Solver.vote (proposeFn attempt k))).info.critique))
      rw [solverSteps_append, solverSteps_attemptEntries]
      omega

lemma go_first_pass (subId : String) (proposeFn : Nat → Nat → List Proposal)
    (inspectFn : Nat → Proposal → InspectResult) (k : Nat) :
    ∀ j fuel attempt last, j < fuel →
      (∀ i, i < j →
        (inspectFn (attempt + i) (Solver.vote (proposeFn (attempt + i) k))).passed = false) →
      (inspectFn (attempt + j) (Solver.vote (proposeFn (attempt + j) k))).passed = true →
      (executeSubtaskGo subId proposeFn inspectFn k fuel attempt last).1
          = attemptArtifact (Solver.vote (proposeFn (attempt + j) k)) ∧
      solverSteps (executeSubtaskGo subId proposeFn inspectFn k fuel attempt last).2
          = j + 1 := by
  intro j
  induction j with
  | zero =>
    intro fuel attempt last hlt hfail hpass
    match fuel, hlt with
    | fuel + 1, _ =>
      simp only [Nat.add_zero] at hpass
      rw [go_step_pass subId proposeFn inspectFn k fuel attempt last hpass]
      exact ⟨rfl, rfl⟩
  | succ j ih =>
    intro fuel attempt last hlt hfail hpass
    match fuel, hlt with
    | fuel + 1, hlt =>
      have hfail0 : (inspectFn attempt (Solver.vote (proposeFn attempt k))).passed = false := by
        have := hfail 0 (Nat.succ_pos j)
        simpa using this
      have hshift : attempt + 1 + j = attempt + (j + 1) := by omega
      have hrec := ih fuel (attempt + 1)
        (some (Solver.vote (proposeFn attempt k),
          (inspectFn attempt (Solver.vote (proposeFn attempt k))).info.critique))
        (by omega)
        (fun i hi => by
          have := hfail (i + 1) (by omega)
          have heq : attempt + 1 + i = attempt + (i + 1) := by omega
          rw [heq]
          exact this)
        (by rw [hshift]; exact hpass)
      rw [hshift] at hrec
      rw [go_step_fail subId proposeFn inspectFn k fuel attempt last hfail0]
      refine ⟨hrec.1, ?_⟩
      rw [solverSteps_append, solverSteps_attemptEntries, hrec.2]
      omega

lemma go_all_fail (subId : String) (proposeFn : Nat → Nat → List Proposal)
    (inspectFn : Nat → Proposal → InspectResult) (k : Nat) :
    ∀ f attempt last,
      (∀ i, i ≤ f →
        (inspectFn (attempt + i) (Solver.vote (proposeFn (attempt + i) k))).passed = false) →
      (executeSubtaskGo subId proposeFn inspectFn k (f + 1) attempt last).1
          = exhaustedArtifact (some (Solver.vote (proposeFn (attempt + f) k),
              (inspectFn (attempt + f)
                (Solver.vote (proposeFn (attempt + f) k))).info.critique)) ∧
      solverSteps (executeSubtaskGo subId proposeFn inspectFn k (f + 1) attempt last).2
          = f + 1 := by
  intro f
  induction f with
  | zero =>
    intro attempt last hfail
    have hfail0 : (inspectFn attempt (Solver.vote (proposeFn attempt k))).passed = false := by
      have := hfail 0 (Nat.le_refl 0)
      simpa using this
    simp only [Nat.add_zero]
    rw [go_step_fail subId proposeFn inspectFn k 0 attempt last hfail0]
    constructor
    · rw [executeSubtaskGo]
    · rw [executeSubtaskGo]
      rw [show ((exhaustedArtifact (some (Solver.vote (proposeFn attempt k),
          (inspectFn attempt (Solver.vote (proposeFn attempt k))).info.critique)), [])).2
            = ([] : List LogEntry) from rfl]
      rw [List.append_nil, solverSteps_attemptEntries]
  | succ f ih =>
    intro attempt last hfail
    have hfail0 : (inspectFn attempt (Solver.vote (proposeFn attempt k))).passed = false := by
      have := hfail 0 (Nat.zero_le _)
      simpa using this
    have hshift : attempt + 1 + f = attempt + (f + 1) := by omega
    have hrec := ih (attempt + 1)
      (some (Solver.vote (proposeFn attempt k),
        (inspectFn attempt (Solver.vote (proposeFn attempt k))).info.critique))
      (fun i hi => by
        have := hfail (i + 1) (by omega)
        have heq : attempt + 1 + i = attempt + (i + 1) := by omega
        rw [heq]
        exact this)
    rw [hshift] at hrec
    rw [go_step_fail subId proposeFn inspectFn k (f + 1) attempt last hfail0]
    refine ⟨hrec.1, ?_⟩
    rw [solverSteps_append, solverSteps_attemptEntries, hrec.2]
    omega

/-- C3: per subtask execution, the propose/vote/inspect sequence runs at most
`maxRetries + 1` times, and if attempt `j` is the first whose verdict passes,
the loop stops there and returns that attempt's voted candidate as the
artifact (exactly `j + 1` solver steps are logged). -/
theorem executeSubtask_retry_bound (maxRetries : Nat) (provider : ModelProvider)
    (sub : Subtask) (proposeFn : Nat → Nat → List Proposal)
    (inspectFn : Nat → Proposal → InspectResult) :
    solverSteps (Orchestrator.executeSubtask maxRetries provider sub proposeFn inspectFn).2
        ≤ maxRetries + 1 ∧
    ∀ j, j ≤ maxRetries →
      (∀ i, i < j →
        (inspectFn i (Solver.vote (proposeFn i (proposalCount provider sub.kind)))).passed
          = false) →
      (inspectFn j (Solver.vote (proposeFn j (proposalCount provider sub.kind)))).passed
          = true →
      (Orchestrator.executeSubtask maxRetries provider sub proposeFn inspectFn).1
          = attemptArtifact (Solver.vote (proposeFn j (proposalCount provider sub.kind))) ∧
      solverSteps (Orchestrator.executeSubtask maxRetries provider sub proposeFn inspectFn).2
          = j + 1 := by
  constructor
  · exact go_steps_le sub.id proposeFn inspectFn _ (maxRetries + 1) 0 none
  · intro j hj hfail hpass
    have h := go_first_pass sub.id proposeFn inspectFn
      (proposalCount provider sub.kind) j (maxRetries + 1) 0 none (by omega)
      (fun i hi => by simpa using hfail i hi) (by simpa using hpass)
    simpa [Orchestrator.executeSubtask] using h

/-- Witness for C3: with a judge oracle that first passes on attempt 1
(maxRetries = 2), the loop performs exactly two attempts and returns the
attempt-1 candidate. -/
theorem executeSubtask_retry_bound_witness :
    (Orchestrator.executeSubtask 2 ModelProvider.openai
        ⟨"s1", SubtaskKind.general, "p", []⟩
        (fun i _ => [⟨"prop" ++ toString i, []⟩])
        (fun i _ => ⟨i == 1, ⟨"crit", []⟩⟩)).1
      = attemptArtifact (Solver.vote [⟨"prop1", []⟩]) ∧
    solverSteps (Orchestrator.executeSubtask 2 ModelProvider.openai
        ⟨"s1", SubtaskKind.general, "p", []⟩
        (fun i _ => [⟨"prop" ++ toString i, []⟩])
        (fun i _ => ⟨i == 1, ⟨"crit", []⟩⟩)).2 = 2 := by
  have h := (executeSubtask_retry_bound 2 ModelProvider.openai
    ⟨"s1", SubtaskKind.general, "p", []⟩
    (fun i _ => [⟨"prop" ++ toString i, []⟩])
    (fun i _ => ⟨i == 1, ⟨"crit", []⟩⟩)).2 1 (by decide)
    (fun i hi => by
      have : i = 0 := by omega
      rw [this]
      decide)
    rfl
  exact h

-- Step lemmas for `runLoop`.

lemma runLoop_deadlock_step (execA : Subtask → List (ID × Artifact) → Artifact)
    (plan : Plan) (fuel : Nat) (done : List ID) (arts : List (ID × Artifact))
    (hlt : done.length < plan.subtasks.length)
    (hempty : readyBatch plan done = []) :
    runLoop execA plan (fuel + 1) done arts = LoopResult.deadlock := by
  rw [runLoop, if_pos hlt]
  simp [hempty]

lemma runLoop_round_step (execA : Subtask → List (ID × Artifact) → Artifact)
    (plan : Plan) (fuel : Nat) (done : List ID) (arts : List (ID × Artifact))
    (hlt : done.length < plan.subtasks.length)
    (hne : (readyBatch plan done).isEmpty = false) :
    runLoop execA plan (fuel + 1) done arts
      = runLoop execA plan fuel
          (((readyBatch plan done).map (fun s => (s.id, execA s arts))).foldl
            (fun d r => setAdd d r.1) done)
          (arts ++ (readyBatch plan done).map (fun s => (s.id, execA s arts))) := by
  rw [runLoop, if_pos hlt]
  simp only [hne, Bool.false_eq_true, if_false]

lemma runLoop_finish (execA : Subtask → List (ID × Artifact) → Artifact)
    (plan : Plan) (fuel : Nat) (done : List ID) (arts : List (ID × Artifact))
    (hge : ¬ done.length < plan.subtasks.length) :
    runLoop execA plan fuel done arts = LoopResult.finished done arts := by
  cases fuel with
  | zero => rw [runLoop, if_neg hge]
  | succ fuel => rw [runLoop, if_neg hge]

-- Frontier membership, freshness and progress.

lemma mem_readyBatch_iff (plan : Plan) (done : List ID) (s : Subtask) :
    s ∈ readyBatch plan done ↔
      s ∈ plan.subtasks ∧ s.id ∉ done ∧ ∀ d ∈ s.deps, d ∈ done := by
  simp [readyBatch, List.mem_filter, List.all_eq_true, List.elem_iff,
    List.contains, and_assoc]

/-- Progress: if every dependency id refers to a subtask of the plan and the
dependency relation is acyclic (witnessed by a rank function that strictly
decreases from a subtask to its dependencies), then as long as some subtask
is not done the frontier is non-empty (a pending subtask of minimal rank is
ready). -/
lemma readyBatch_ne_nil (plan : Plan) (rank : ID → Nat)
    (hcl : ∀ s ∈ plan.subtasks, ∀ d ∈ s.deps, d ∈ plan.ids)
    (hrank : ∀ s ∈ plan.subtasks, ∀ d ∈ s.deps, rank d < rank s.id)
    (done : List ID) (s0 : Subtask) (hs0 : s0 ∈ plan.subtasks)
    (hs0nd : s0.id ∉ done) :
    readyBatch plan done ≠ [] := by
  classical
  have hs0p : s0 ∈ plan.subtasks.filter (fun s => !done.contains s.id) := by
    refine List.mem_filter.mpr ⟨hs0, ?_⟩
    simp [List.contains, List.elem_iff, hs0nd]
  have hne : plan.subtasks.filter (fun s => !done.contains s.id) ≠ [] := by
    intro h
    rw [h] at hs0p
    exact absurd hs0p (List.not_mem_nil s0)
  obtain ⟨m, hm⟩ : ∃ m,
      m ∈ (plan.subtasks.filter (fun s => !done.contains s.id)).argmin
        (fun s => rank s.id) := by
    cases hargm : (plan.subtasks.filter (fun s => !done.contains s.id)).argmin
        (fun s => rank s.id) with
    | none => exact absurd (List.argmin_eq_none.mp hargm) hne
    | some m => exact ⟨m, rfl⟩
  have hmp := List.argmin_mem hm
  have hmsub : m ∈ plan.subtasks := (List.mem_filter.mp hmp).1
  have hmnd : m.id ∉ done := by
    have h2 := (List.mem_filter.mp hmp).2
    simp [List.contains, List.elem_iff] at h2
    exact h2
  have hdeps : ∀ d ∈ m.deps, d ∈ done := by
    intro d hd
    by_contra hdnot
    obtain ⟨t, ht, htid⟩ : ∃ t ∈ plan.subtasks, t.id = d := by
      have h3 := hcl m hmsub d hd
      simpa [Plan.ids, List.mem_map] using h3
    have htp : t ∈ plan.subtasks.filter (fun s => !done.contains s.id) := by
      refine List.mem_filter.mpr ⟨ht, ?_⟩
      rw [htid]
      simp [List.contains, List.elem_iff, hdnot]
    have hle := List.le_of_mem_argmin htp hm
    have hlt := hrank m hmsub d hd
    rw [htid] at hle
    omega
  intro hnil
  have hmr : m ∈ readyBatch plan done :=
    (mem_readyBatch_iff plan done m).mpr ⟨hmsub, hmnd, hdeps⟩
  rw [hnil] at hmr
  exact absurd hmr (List.not_mem_nil m)

/-- Adding a batch of fresh, pairwise-distinct ids to the done set appends
them in order. -/
lemma foldl_setAdd_fresh : ∀ (xs done : List ID), xs.Nodup →
    (∀ x ∈ xs, x ∉ done) → xs.foldl setAdd done = done ++ xs := by
  intro xs
  induction xs with
  | nil => intro done _ _; simp
  | cons x xs ih =>
    intro done hnd hfresh
    simp only [List.foldl_cons]
    have hx : x ∉ done := hfresh x (List.mem_cons_self _ _)
    have hsa : setAdd done x = done ++ [x] := by
      simp only [setAdd]
      rw [if_neg]
      simp [List.contains, List.elem_iff, hx]
    rw [hsa, ih (done ++ [x]) (List.nodup_cons.mp hnd).2 ?_]
    · simp
    · intro y hy
      simp only [List.mem_append, List.mem_singleton]
      rintro (h | h)
      · exact hfresh y (List.mem_cons_of_mem _ hy) h
      · exact (List.nodup_cons.mp hnd).1 (h ▸ hy)

/-- Two duplicate-free lists, one contained in the other and at least as
long, have the same members. -/
lemma mem_iff_of_nodup_subset_le (l m : List ID) (hl : l.Nodup) (hm : m.Nodup)
    (hsub : ∀ a ∈ l, a ∈ m) (hlen : m.length ≤ l.length) :
    ∀ a, a ∈ l ↔ a ∈ m := by
  have hfs : l.toFinset ⊆ m.toFinset := by
    intro a ha
    rw [List.mem_toFinset] at ha ⊢
    exact hsub a ha
  have hcard : m.toFinset.card ≤ l.toFinset.card := by
    rw [List.toFinset_card_of_nodup hl, List.toFinset_card_of_nodup hm]
    exact hlen
  have heq := Finset.eq_of_subset_of_card_le hfs hcard
  intro a
  constructor
  · intro h
    exact hsub a h
  · intro h
    have h2 : a ∈ m.toFinset := List.mem_toFinset.mpr h
    rw [← heq] at h2
    exact List.mem_toFinset.mp h2

/-- Main scheduler invariant: starting from a duplicate-free done set that
only mentions plan ids and an artifact table keyed exactly by it, with enough
fuel for the remaining subtasks, the loop finishes with a duplicate-free done
set covering exactly the plan's ids and an artifact table keyed exactly by it
(one entry per completed subtask, in completion order). -/
lemma runLoop_completes (execA : Subtask → List (ID × Artifact) → Artifact)
    (plan : Plan) (rank : ID → Nat)
    (hnd : plan.ids.Nodup)
    (hcl : ∀ s ∈ plan.subtasks, ∀ d ∈ s.deps, d ∈ plan.ids)
    (hrank : ∀ s ∈ plan.subtasks, ∀ d ∈ s.deps, rank d < rank s.id) :
    ∀ fuel done arts, done.Nodup → (∀ a ∈ done, a ∈ plan.ids) →
      arts.map Prod.fst = done →
      plan.subtasks.length ≤ done.length + fuel →
      ∃ d2 a2, runLoop execA plan fuel done arts = LoopResult.finished d2 a2 ∧
        d2.Nodup ∧ (∀ a, a ∈ d2 ↔ a ∈ plan.ids) ∧ a2.map Prod.fst = d2 := by
  have hidslen : plan.ids.length = plan.subtasks.length := List.length_map _ _
  intro fuel
  induction fuel with
  | zero =>
    intro done arts hdnd hdsub hamap hlen
    have hge : ¬ done.length < plan.subtasks.length := by omega
    refine ⟨done, arts, runLoop_finish execA plan 0 done arts hge, hdnd, ?_, hamap⟩
    exact mem_iff_of_nodup_subset_le done plan.ids hdnd hnd hdsub (by omega)
  | succ fuel ih =>
    intro done arts hdnd hdsub hamap hlen
    by_cases hlt : done.length < plan.subtasks.length
    · -- some subtask is still pending
      have hex : ∃ s ∈ plan.subtasks, s.id ∉ done := by
        by_contra hall
        push_neg at hall
        have hids_sub : ∀ a ∈ plan.ids, a ∈ done := by
          intro a ha
          obtain ⟨s, hs, hsid⟩ := List.mem_map.mp ha
          rw [← hsid]
          exact hall s hs
        have := mem_iff_of_nodup_subset_le plan.ids done hnd hdnd hids_sub
          (by
            have hdle : done.length ≤ plan.ids.length := by
              classical
              have hfs : done.toFinset ⊆ plan.ids.toFinset := by
                intro a ha
                rw [List.mem_toFinset] at ha ⊢
                exact hdsub a ha
              have := Finset.card_le_card hfs
              rw [List.toFinset_card_of_nodup hdnd,
                List.toFinset_card_of_nodup hnd] at this
              exact this
            omega)
        -- then done already has at least ids.length elements
        have hdge : plan.ids.length ≤ done.length := by
          classical
          have hfs : plan.ids.toFinset ⊆ done.toFinset := by
            intro a ha
            rw [List.mem_toFinset] at ha ⊢
            exact hids_sub a ha
          have hc := Finset.card_le_card hfs
          rw [List.toFinset_card_of_nodup hdnd,
            List.toFinset_card_of_nodup hnd] at hc
          exact hc
        omega
      obtain ⟨s0, hs0, hs0nd⟩ := hex
      have hbne := readyBatch_ne_nil plan rank hcl hrank done s0 hs0 hs0nd
      have hbisE : (readyBatch plan done).isEmpty = false := by
        cases hb : readyBatch plan done with
        | nil => exact absurd hb hbne
        | cons a l => rfl
      rw [runLoop_round_step execA plan fuel done arts hlt hbisE]
      -- facts about the batch
      have hbatch_sub : ∀ s ∈ readyBatch plan done, s ∈ plan.subtasks := by
        intro s hs
        exact ((mem_readyBatch_iff plan done s).mp hs).1
      have hbids_nodup : ((readyBatch plan done).map Subtask.id).Nodup := by
        have hsl : List.Sublist ((readyBatch plan done).map Subtask.id)
            (plan.subtasks.map Subtask.id) :=
          (List.filter_sublist _).map Subtask.id
        exact List.Nodup.sublist hsl hnd
      have hbids_fresh : ∀ x ∈ (readyBatch plan done).map Subtask.id,
          x ∉ done := by
        intro x hx
        obtain ⟨s, hs, hsid⟩ := List.mem_map.mp hx
        rw [← hsid]
        exact ((mem_readyBatch_iff plan done s).mp hs).2.1
      have hbids_sub : ∀ x ∈ (readyBatch plan done).map Subtask.id,
          x ∈ plan.ids := by
        intro x hx
        obtain ⟨s, hs, hsid⟩ := List.mem_map.mp hx
        rw [← hsid]
        exact List.mem_map_of_mem Subtask.id (hbatch_sub s hs)
      have hresid : ((readyBatch plan done).map
            (fun s => (s.id, execA s arts))).map Prod.fst
          = (readyBatch plan done).map Subtask.id := by
        rw [List.map_map]
        rfl
      have hfold : (((readyBatch plan done).map
            (fun s => (s.id, execA s arts))).foldl
            (fun d r => setAdd d r.1) done)
          = done ++ (readyBatch plan done).map Subtask.id := by
        rw [← List.foldl_map Prod.fst setAdd, hresid]
        exact foldl_setAdd_fresh _ done hbids_nodup hbids_fresh
      rw [hfold]
      have hblen : 0 < (readyBatch plan done).length :=
        List.length_pos.mpr hbne
      apply ih
      · refine List.Nodup.append hdnd hbids_nodup ?_
        intro a ha hab
        exact hbids_fresh a hab ha
      · intro a ha
        rcases List.mem_append.mp ha with h | h
        · exact hdsub a h
        · exact hbids_sub a h
      · rw [List.map_append, hamap, hresid]
      · rw [List.length_append, List.length_map]
        omega
    · exact ⟨done, arts, runLoop_finish execA plan (fuel + 1) done arts hlt,
        hdnd,
        mem_iff_of_nodup_subset_le done plan.ids hdnd hnd hdsub (by omega),
        hamap⟩

/-- C1: whenever the ready frontier is empty while the done set is a strict
subset of all subtask ids (`done.size < plan.subtasks.length`), the scheduler
loop aborts at once with the deadlock error — a constructor carrying no
artifact table and no final artifact — and in particular a run whose very
first frontier is empty returns the bare deadlock outcome. -/
theorem run_deadlock_no_partial_result
    (execA : Subtask → List (ID × Artifact) → Artifact) (plan : Plan)
    (fuel : Nat) (done : List ID) (arts : List (ID × Artifact))
    (hlt : done.length < plan.subtasks.length)
    (hempty : readyBatch plan done = []) :
    runLoop execA plan (fuel + 1) done arts = LoopResult.deadlock ∧
    (done = [] → Orchestrator.run execA plan = RunOutcome.deadlock) := by
  refine ⟨runLoop_deadlock_step execA plan fuel done arts hlt hempty, ?_⟩
  intro hdone0
  subst hdone0
  unfold Orchestrator.run
  obtain ⟨n, hn⟩ : ∃ n, plan.subtasks.length = n + 1 :=
    ⟨plan.subtasks.length - 1, by omega⟩
  rw [hn, runLoop_deadlock_step execA plan n [] [] (by simp; omega) hempty]

/-- Witness for C1: on the cyclic plan the first frontier is empty and the
run deadlocks with no partial result. -/
theorem run_deadlock_no_partial_result_witness :
    runLoop echoExec cyclicPlan 1 [] [] = LoopResult.deadlock ∧
    Orchestrator.run echoExec cyclicPlan = RunOutcome.deadlock := by
  have h := run_deadlock_no_partial_result echoExec cyclicPlan 0 [] []
    (by decide) (by decide)
  exact ⟨h.1, h.2 rfl⟩

/-- C2: for every plan of 1–8 subtasks with duplicate-free ids whose every
dependency refers to another subtask of the plan and whose dependency
relation is acyclic (witnessed by a rank function), the run terminates with
the `ok` outcome; the done set lists each subtask id exactly once (it is
duplicate-free and covers exactly the plan's ids) and the artifact table has
exactly one entry per subtask id (its keys are exactly the done list). -/
theorem run_terminates_each_done_once
    (execA : Subtask → List (ID × Artifact) → Artifact) (plan : Plan)
    (rank : ID → Nat)
    (hlen1 : 1 ≤ plan.subtasks.length) (hlen8 : plan.subtasks.length ≤ 8)
    (hnd : plan.ids.Nodup)
    (hcl : ∀ s ∈ plan.subtasks, ∀ d ∈ s.deps, d ∈ plan.ids)
    (hrank : ∀ s ∈ plan.subtasks, ∀ d ∈ s.deps, rank d < rank s.id) :
    ∃ final done arts,
      Orchestrator.run execA plan = RunOutcome.ok final done arts ∧
      done.Nodup ∧ (∀ a, a ∈ done ↔ a ∈ plan.ids) ∧
      arts.map Prod.fst = done := by
  obtain ⟨d2, a2, hrun, hnd2, hmem, hmap⟩ :=
    runLoop_completes execA plan rank hnd hcl hrank plan.subtasks.length [] []
      List.nodup_nil (by simp) rfl (by omega)
  refine ⟨plan.finalId.bind (fun i => lookupArtifact a2 i), d2, a2, ?_,
    hnd2, hmem, hmap⟩
  unfold Orchestrator.run
  rw [hrun]

/-- Witness for C2 on the three-subtask chain. -/
theorem run_terminates_each_done_once_witness :
    ∃ final done arts,
      Orchestrator.run echoExec chainPlan = RunOutcome.ok final done arts ∧
      done.Nodup ∧ (∀ a, a ∈ done ↔ a ∈ chainPlan.ids) ∧
      arts.map Prod.fst = done :=
  run_terminates_each_done_once echoExec chainPlan chainRank
    (by decide) (by decide) (by decide) (by decide) (by decide)

/-- C5: under the conditions of C2, the final artifact returned by the run is
the artifact-table entry of the *last subtask in declared plan order*
(`plan.finalId`), independently of completion order and of which subtask is
the dependency graph's sink. -/
theorem run_final_is_last_declared
    (execA : Subtask → List (ID × Artifact) → Artifact) (plan : Plan)
    (rank : ID → Nat) (slast : Subtask)
    (hnd : plan.ids.Nodup)
    (hcl : ∀ s ∈ plan.subtasks, ∀ d ∈ s.deps, d ∈ plan.ids)
    (hrank : ∀ s ∈ plan.subtasks, ∀ d ∈ s.deps, rank d < rank s.id)
    (hlast : plan.subtasks.getLast? = some slast) :
    ∃ a done arts,
      Orchestrator.run execA plan = RunOutcome.ok (some a) done arts ∧
      lookupArtifact arts slast.id = some a := by
  obtain ⟨d2, a2, hrun, hnd2, hmem, hmap⟩ :=
    runLoop_completes execA plan rank hnd hcl hrank plan.subtasks.length [] []
      List.nodup_nil (by simp) rfl (by omega)
  have hmemid : slast.id ∈ plan.ids :=
    List.mem_map_of_mem Subtask.id (List.mem_of_mem_getLast? hlast)
  have hkey : slast.id ∈ a2.map Prod.fst := by
    rw [hmap]
    exact (hmem _).mpr hmemid
  obtain ⟨p, hp, hpid⟩ := List.mem_map.mp hkey
  have hfindSome : (a2.find? (fun q => q.1 == slast.id)).isSome := by
    rw [List.find?_isSome]
    exact ⟨p, hp, by simp [hpid]⟩
  obtain ⟨q, hq⟩ := Option.isSome_iff_exists.mp hfindSome
  refine ⟨q.2, d2, a2, ?_, ?_⟩
  · unfold Orchestrator.run
    rw [hrun]
    simp [Plan.finalId, hlast, lookupArtifact, hq]
  · simp [lookupArtifact, hq]

/-- Witness for C5: on `lastNotSinkPlan` the final artifact is that of the
declared-last subtask "s2", even though "s1" (the graph's sink) completed
most recently; the fully evaluated run confirms this concretely. -/
theorem run_final_is_last_declared_witness :
    (∃ a done arts,
      Orchestrator.run echoExec lastNotSinkPlan = RunOutcome.ok (some a) done arts ∧
      lookupArtifact arts "s2" = some a) ∧
    Orchestrator.run echoExec lastNotSinkPlan
      = RunOutcome.ok (some ⟨"s2", [], none, false, none⟩) ["s2", "s1"]
          [("s2", ⟨"s2", [], none, false, none⟩),
           ("s1", ⟨"s1", [], none, false, none⟩)] := by
  constructor
  · exact run_final_is_last_declared echoExec lastNotSinkPlan lastNotSinkRank
      ⟨"s2", SubtaskKind.research, "gather", []⟩
      (by decide) (by decide) (by decide) rfl
  · decide

/-- C4: when every one of the `maxRetries + 1` attempts fails the judge's
verdict, `executeSubtask` returns (rather than throwing — the function is
total and its value is given explicitly) the *last* attempt's candidate
annotated with the last critique, `failed = true` and the best-effort note;
exactly `maxRetries + 1` attempts were made; and the orchestrator run that
uses such degraded artifacts still completes on any well-formed plan — the
failure is not fatal. -/
theorem executeSubtask_exhausted_degrades (maxRetries : Nat)
    (provider : ModelProvider) (sub : Subtask)
    (proposeFn : Nat → Nat → List Proposal)
    (inspectFn : Nat → Proposal → InspectResult)
    (hfail : ∀ i, i ≤ maxRetries →
      (inspectFn i
        (Solver.vote (proposeFn i (proposalCount provider sub.kind)))).passed
        = false) :
    (Orchestrator.executeSubtask maxRetries provider sub proposeFn inspectFn).1
        = exhaustedArtifact (some
            (Solver.vote (proposeFn maxRetries (proposalCount provider sub.kind)),
             (inspectFn maxRetries
               (Solver.vote
                 (proposeFn maxRetries
                   (proposalCount provider sub.kind)))).info.critique)) ∧
    (Orchestrator.executeSubtask maxRetries provider sub proposeFn inspectFn).1.failed
        = true ∧
    (Orchestrator.executeSubtask maxRetries provider sub proposeFn inspectFn).1.note
        = some exhaustedNote ∧
    solverSteps
        (Orchestrator.executeSubtask maxRetries provider sub proposeFn inspectFn).2
        = maxRetries + 1 ∧
    (∀ (plan : Plan) (rank : ID → Nat),
       plan.ids.Nodup →
       (∀ s ∈ plan.subtasks, ∀ d ∈ s.deps, d ∈ plan.ids) →
       (∀ s ∈ plan.subtasks, ∀ d ∈ s.deps, rank d < rank s.id) →
       ∃ final done arts,
         Orchestrator.run
             (fun s _ =>
               (Orchestrator.executeSubtask maxRetries provider s
                 proposeFn inspectFn).1) plan
           = RunOutcome.ok final done arts) := by
  have h := go_all_fail sub.id proposeFn inspectFn
    (proposalCount provider sub.kind) maxRetries 0 none
    (fun i hi => by simpa using hfail i hi)
  simp only [Nat.zero_add] at h
  have h1 :
      (Orchestrator.executeSubtask maxRetries provider sub proposeFn inspectFn).1
        = exhaustedArtifact (some
            (Solver.vote (proposeFn maxRetries (proposalCount provider sub.kind)),
             (inspectFn maxRetries
               (Solver.vote
                 (proposeFn maxRetries
                   (proposalCount provider sub.kind)))).info.critique)) := h.1
  refine ⟨h1, ?_, ?_, h.2, ?_⟩
  · rw [h1]
    rfl
  · rw [h1]
    rfl
  · intro plan rank hnd hcl hrank
    obtain ⟨d2, a2, hrun, _, _, _⟩ := runLoop_completes
      (fun s _ =>
        (Orchestrator.executeSubtask maxRetries provider s proposeFn inspectFn).1)
      plan rank hnd hcl hrank plan.subtasks.length [] []
      List.nodup_nil (by simp) rfl (by omega)
    refine ⟨plan.finalId.bind (fun i => lookupArtifact a2 i), d2, a2, ?_⟩
    unfold Orchestrator.run
    rw [hrun]

/-- Witness for C4: a judge oracle that always rejects; with maxRetries = 1
the loop performs two attempts and yields the degraded `failed` artifact. -/
theorem executeSubtask_exhausted_degrades_witness :
    (Orchestrator.executeSubtask 1 ModelProvider.openai
        ⟨"s1", SubtaskKind.general, "p", []⟩
        (fun i _ => [⟨"prop" ++ toString i, []⟩])
        (fun _ _ => ⟨false, ⟨"rejected", []⟩⟩)).1.failed = true ∧
    (Orchestrator.executeSubtask 1 ModelProvider.openai
        ⟨"s1", SubtaskKind.general, "p", []⟩
        (fun i _ => [⟨"prop" ++ toString i, []⟩])
        (fun _ _ => ⟨false, ⟨"rejected", []⟩⟩)).1.note = some exhaustedNote ∧
    solverSteps (Orchestrator.executeSubtask 1 ModelProvider.openai
        ⟨"s1", SubtaskKind.general, "p", []⟩
        (fun i _ => [⟨"prop" ++ toString i, []⟩])
        (fun _ _ => ⟨false, ⟨"rejected", []⟩⟩)).2 = 2 := by
  have h := executeSubtask_exhausted_degrades 1 ModelProvider.openai
    ⟨"s1", SubtaskKind.general, "p", []⟩
    (fun i _ => [⟨"prop" ++ toString i, []⟩])
    (fun _ _ => ⟨false, ⟨"rejected", []⟩⟩)
    (fun i _ => rfl)
  exact ⟨h.2.1, h.2.2.1, h.2.2.2.1⟩

/-- C7: the judge's accept/reject decision equals the logical AND of the
tooling test-suite results alone, and it is identical under every
critique-generating backend — so it is independent of the critique text and
of the selected evaluation mode, which only shape the advisory prompt. -/
theorem inspect_passed_iff_all_tests (runTests : Artifact → List TestResult)
    (critiqueFn : EvalMode → Subtask → Artifact → String → List TestResult → String)
    (sub : Subtask) (artifact : Artifact) (goal : String) :
    (Judge.inspect runTests critiqueFn sub artifact goal).passed
        = (runTests artifact).all (fun t => t.passed) ∧
    (Judge.inspect runTests critiqueFn sub artifact goal).info.tests
        = runTests artifact ∧
    ∀ critiqueFn2,
      (Judge.inspect runTests critiqueFn2 sub artifact goal).passed
        = (Judge.inspect runTests critiqueFn sub artifact goal).passed :=
  ⟨rfl, rfl, fun _ => rfl⟩

/-- C10: under the OpenAI provider, or whenever the retriever was constructed
with `useRealSearch = false`, no live fetch is ever issued — whatever the
search mode (including `always`) and subtask kind (including `research`) —
and the call returns the knowledge-based fallback bundle with the cache
untouched; conversely a fetch can only ever be issued under Groq with
`useRealSearch = true` on a `research` subtask; and the CLI wiring gives the
OpenAI provider `useRealSearch = false` in every mode. -/
theorem retrieve_no_fetch_under_openai
    (provider : ModelProvider) (useRealSearch : Bool) (searchMode : SearchMode)
    (generate : String → Except String String)
    (successBundle : String → String → Bundle)
    (cache : List (String × Bundle)) (query : String) (kind : SubtaskKind)
    (goal : String)
    (h : provider = ModelProvider.openai ∨ useRealSearch = false) :
    Retriever.retrieve provider useRealSearch searchMode generate successBundle
        cache query kind goal
      = ⟨fallbackBundle false query, cache, false⟩ ∧
    (∀ (p : ModelProvider) (u : Bool) (m : SearchMode)
       (g : String → Except String String) (sb : String → String → Bundle)
       (c : List (String × Bundle)) (q : String) (k : SubtaskKind)
       (gl : String),
       (Retriever.retrieve p u m g sb c q k gl).fetched = true →
       p = ModelProvider.groq ∧ u = true ∧ k = SubtaskKind.research) ∧
    (∀ m : SearchMode, useRealSearchFor ModelProvider.openai m = false) := by
  refine ⟨?_, ?_, ?_⟩
  · have hss : Retriever.shouldSearch provider useRealSearch searchMode kind
        query goal = false := by
      rcases h with h | h
      · subst h
        simp [Retriever.shouldSearch, browserSearchAvailable,
          show (ModelProvider.openai == ModelProvider.groq) = false from rfl]
      · subst h
        simp [Retriever.shouldSearch]
    unfold Retriever.retrieve
    rw [hss]
    simp
  · intro p u m g sb c q k gl hf
    by_cases hps : Retriever.shouldSearch p u m k q gl = true
    · have hconj := hps
      simp only [Retriever.shouldSearch, Bool.and_eq_true, beq_iff_eq] at hconj
      exact ⟨hconj.1.1.1.2, hconj.1.1.1.1, hconj.1.2⟩
    · have hss2 : Retriever.shouldSearch p u m k q gl = false :=
        Bool.eq_false_iff.mpr hps
      unfold Retriever.retrieve at hf
      rw [hss2] at hf
      simp at hf
  · intro m
    cases m <;> rfl

/-- Witness for C10: OpenAI provider, search mode `always`, `research`
subtask — still no fetch, and the knowledge-based fallback bundle is
returned. -/
theorem retrieve_no_fetch_under_openai_witness :
    Retriever.retrieve ModelProvider.openai true SearchMode.always
        (fun _ => Except.error "unreachable")
        (fun _ _ => fallbackBundle true "x") [] "latest news"
        SubtaskKind.research ""
      = ⟨fallbackBundle false "latest news", [], false⟩ :=
  (retrieve_no_fetch_under_openai ModelProvider.openai true SearchMode.always
    (fun _ => Except.error "unreachable") (fun _ _ => fallbackBundle true "x")
    [] "latest news" SubtaskKind.research "" (Or.inl rfl)).1

/-- Counterexample for C9 as stated: at a concrete retrieval call whose live
fetch throws, the bundle returned is the degraded *search* fallback — its
sources are the placeholder `["https://example.com/source"]` — and not the
knowledge-based bundle (`sources = ["internal-knowledge"]`, the bundle the
source's own comment labels knowledge-based and §4.4 calls the
internal-knowledge marker). -/
theorem retrieve_failure_not_knowledge_based :
    (Retriever.retrieve ModelProvider.groq true SearchMode.always
        (fun _ => Except.error "network error")
        (fun _ _ => fallbackBundle true "x") [] "latest news"
        SubtaskKind.research "").bundle.sources
      = ["https://example.com/source"] ∧
    (Retriever.retrieve ModelProvider.groq true SearchMode.always
        (fun _ => Except.error "network error")
        (fun _ _ => fallbackBundle true "x") [] "latest news"
        SubtaskKind.research "").bundle
      ≠ fallbackBundle false "latest news" := by
  decide

/-- C9 (amended): when the live fetch is issued (search required, cache miss)
and throws, `retrieve` does not propagate the error: it returns the degraded
search-fallback evidence bundle (placeholder source
`https://example.com/source`, a `claim` node) with the cache unchanged — not
the knowledge-based bundle.  The failure is never fatal: the call returns a
complete bundle. -/
theorem retrieve_failure_degrades (provider : ModelProvider)
    (useRealSearch : Bool) (searchMode : SearchMode)
    (generate : String → Except String String)
    (successBundle : String → String → Bundle)
    (cache : List (String × Bundle)) (query : String) (kind : SubtaskKind)
    (goal : String) (msg : String)
    (hss : Retriever.shouldSearch provider useRealSearch searchMode kind query
        goal = true)
    (hmiss : cache.find? (fun p => p.1 == "search:" ++ query) = none)
    (hgen : generate query = Except.error msg) :
    Retriever.retrieve provider useRealSearch searchMode generate successBundle
        cache query kind goal
      = ⟨fallbackBundle true query, cache, true⟩ := by
  unfold Retriever.retrieve
  rw [hss, hmiss, hgen]
  simp

/-- Witness for C9's amended theorem at a concrete failing fetch. -/
theorem retrieve_failure_degrades_witness :
    Retriever.retrieve ModelProvider.groq true SearchMode.always
        (fun _ => Except.error "network error")
        (fun _ _ => fallbackBundle true "x") [] "latest news"
        SubtaskKind.research ""
      = ⟨fallbackBundle true "latest news", [], true⟩ :=
  retrieve_failure_degrades ModelProvider.groq true SearchMode.always
    (fun _ => Except.error "network error") (fun _ _ => fallbackBundle true "x")
    [] "latest news" SubtaskKind.research "" "network error"
    (by decide) rfl rfl

-- Score-range lemmas for each producer.

lemma convertRelevanceToScore_mem_unit (relevance : String) (applicable : Bool) :
    0 ≤ Retriever.convertRelevanceToScore relevance applicable ∧
    Retriever.convertRelevanceToScore relevance applicable ≤ 1 := by
  unfold Retriever.convertRelevanceToScore
  split
  · norm_num
  · split <;> norm_num

lemma assessTitleRelevance_mem_unit (title : String) :
    0 ≤ Retriever.assessTitleRelevance title ∧
    Retriever.assessTitleRelevance title ≤ 1 := by
  unfold Retriever.assessTitleRelevance
  split
  · norm_num
  · split
    · norm_num
    · split <;> norm_num

lemma clamp_mem_unit (x : ℚ) : 0 ≤ max 0 (min 1 x) ∧ max 0 (min 1 x) ≤ 1 :=
  ⟨le_max_left 0 _, max_le (by norm_num) (min_le_left 1 x)⟩

lemma extractEnhancedSourceData_mem_unit (ro : RegexOracle) (sec : String)
    (rec : SourceAnalysis)
    (h : Retriever.extractEnhancedSourceData ro sec = some rec) :
    0 ≤ rec.relevanceScore ∧ rec.relevanceScore ≤ 1 := by
  unfold Retriever.extractEnhancedSourceData at h
  cases hu : ro.enhancedUrl sec with
  | none => rw [hu] at h; exact absurd h (by simp)
  | some u =>
    rw [hu] at h
    simp only [Option.some.injEq] at h
    rw [← h]
    exact convertRelevanceToScore_mem_unit _ _

lemma extractSourceData_mem_unit (ro : RegexOracle) (sec : String)
    (rec : SourceAnalysis)
    (h : Retriever.extractSourceData ro sec = some rec) :
    0 ≤ rec.relevanceScore ∧ rec.relevanceScore ≤ 1 := by
  unfold Retriever.extractSourceData at h
  cases hu : ro.oldUrl sec with
  | none => rw [hu] at h; exact absurd h (by simp)
  | some u =>
    rw [hu] at h
    simp only [Option.some.injEq] at h
    rw [← h]
    exact clamp_mem_unit _

lemma parseStructuredFormat_mem_unit (ro : RegexOracle) (text : String) :
    ∀ rec ∈ Retriever.parseStructuredFormat ro text,
      0 ≤ rec.relevanceScore ∧ rec.relevanceScore ≤ 1 := by
  intro rec hrec
  simp only [Retriever.parseStructuredFormat] at hrec
  split at hrec
  · obtain ⟨sec, _, hex⟩ := List.mem_filterMap.mp hrec
    exact extractEnhancedSourceData_mem_unit ro sec rec hex
  · obtain ⟨sec, _, hex⟩ := List.mem_filterMap.mp hrec
    exact extractSourceData_mem_unit ro sec rec hex

lemma parseGroqFormat_mem_unit (ro : RegexOracle) (text : String) :
    ∀ rec ∈ Retriever.parseGroqFormat ro text,
      0 ≤ rec.relevanceScore ∧ rec.relevanceScore ≤ 1 := by
  intro rec hrec
  rcases List.mem_append.mp hrec with h | h
  · obtain ⟨m, _, hm⟩ := List.mem_map.mp h
    rw [← hm]
    exact assessTitleRelevance_mem_unit m.1
  · obtain ⟨url, _, hm⟩ := List.mem_map.mp h
    rw [← hm]
    norm_num

lemma parseRegexFallback_mem_unit (ro : RegexOracle) (text : String) :
    ∀ rec ∈ Retriever.parseRegexFallback ro text,
      0 ≤ rec.relevanceScore ∧ rec.relevanceScore ≤ 1 := by
  intro rec hrec
  obtain ⟨url, _, hm⟩ := List.mem_map.mp hrec
  rw [← hm]
  norm_num

/-- C8: every source record produced by `parseSourceAnalysis` — through the
structured-format branch (converted or clamped scores), the platform-native
tagged branch (title-length scores and 0.7 for direct URLs), or the bare-URL
fallback (0.5) — has its relevance score in [0,1], for arbitrary raw regex
matches. -/
theorem parseSourceAnalysis_relevance_in_unit (ro : RegexOracle)
    (text : String) :
    ∀ rec ∈ Retriever.parseSourceAnalysis ro text,
      0 ≤ rec.relevanceScore ∧ rec.relevanceScore ≤ 1 := by
  intro rec hrec
  simp only [Retriever.parseSourceAnalysis] at hrec
  split at hrec
  · exact parseStructuredFormat_mem_unit ro text rec hrec
  · split at hrec
    · exact parseGroqFormat_mem_unit ro text rec hrec
    · exact parseRegexFallback_mem_unit ro text rec hrec

/-- Witness for C8: the record parsed from the tagged citation gets score 0.3
(title shorter than 20 characters), which lies in [0,1]. -/
theorem parseSourceAnalysis_relevance_in_unit_witness :
    0 ≤ (⟨"https://example.gov", "example.gov", 0.3, Authority.High, none,
          ["Some Title Here!"],
          "Groq search result: Some Title Here!"⟩ : SourceAnalysis).relevanceScore ∧
    (⟨"https://example.gov", "example.gov", 0.3, Authority.High, none,
      ["Some Title Here!"],
      "Groq search result: Some Title Here!"⟩ : SourceAnalysis).relevanceScore ≤ 1 :=
  parseSourceAnalysis_relevance_in_unit witnessOracle "search output"
    ⟨"https://example.gov", "example.gov", 0.3, Authority.High, none,
     ["Some Title Here!"], "Groq search result: Some Title Here!"⟩
    (by exact List.Mem.head _)
